import Mathlib

/-!
# Verification of the gplinks_bot redirect-resolution engine

A shallow embedding of the redirect-resolution engine of the repository
(`bot.py`, `web_bypass.py`).  Python strings are modelled as `List Char`
(a Python `str` is a sequence of code points), bytes as `List Nat`
(each `< 256`).  Browser I/O (Playwright) is an external collaborator:
per-round observations of the page are inputs to the embedded control
logic, which is translated statement by statement from the source.

Sections:
* Python string primitives (`in`, `split`, `strip`, `lower`, …)
* UTF-8 encode/decode (`str.encode` / `bytes.decode`)
* URL-safe base64 (`base64.urlsafe_b64encode/b64decode`)
* `urllib.parse.urlparse` / `unquote` models
* `try_decode_get2_in` (bot.py)
* captcha detection, `looks_final` classifiers
* `try_click_getlink_elements` (web_bypass.py)
* the `bypass_once` round loop (web_bypass.py)
* the attempt orchestrators (`bypass_endpoint`, `bypass_gplinks`,
  the cloudscraper `bypass` endpoint)
-/

namespace GpBot

/-! ## Python string primitives -/

/-- Python's `needle in hay` substring test on strings. -/
def strIn (needle : List Char) : List Char → Bool
  | [] => needle.isEmpty
  | c :: cs => needle.isPrefixOf (c :: cs) || strIn needle cs

/-- ASCII lowering of one character; models `str.lower` for the ASCII
range (all strings compared by the engine are ASCII). -/
def asciiLower (c : Char) : Char :=
  if 'A' ≤ c ∧ c ≤ 'Z' then Char.ofNat (c.toNat + 32) else c

/-- Models Python `str.lower` (ASCII range). -/
def pyLower (s : List Char) : List Char := s.map asciiLower

/-- Python whitespace for `str.strip`. -/
def isPyWs (c : Char) : Bool :=
  c = ' ' ∨ c = '\t' ∨ c = '\n' ∨ c = '\r' ∨ c = '\x0b' ∨ c = '\x0c'

/-- Models Python `str.strip()`. -/
def pyStrip (s : List Char) : List Char :=
  ((s.dropWhile isPyWs).reverse.dropWhile isPyWs).reverse

/-- Split a string at the first occurrence of `c`; `none` if absent.
Used to model `str.split(sep, 1)` and `str.find`. -/
def splitFirst (c : Char) : List Char → Option (List Char × List Char)
  | [] => none
  | x :: xs =>
    if x = c then some ([], xs)
    else (splitFirst c xs).map (fun p => (x :: p.1, p.2))

/-- Python `str.split(sep)` for a one-character separator (keeps empty
pieces; `"".split(sep) == [""]`). -/
def splitOnChar (c : Char) : List Char → List (List Char)
  | [] => [[]]
  | x :: xs =>
    match splitOnChar c xs with
    | [] => [[]]
    | h :: t => if x = c then [] :: h :: t else (x :: h) :: t

/-- Python `s.split(sep, 1)[-1]`: the part after the first `sep` when
present, otherwise the whole string. -/
def afterFirst (c : Char) (s : List Char) : List Char :=
  match splitFirst c s with
  | some p => p.2
  | none => s

/-! ## UTF-8 (`str.encode` / `bytes.decode`) -/

/-- UTF-8 encoding of one code point (standard 1–4 byte forms). -/
def utf8EncodeChar (c : Char) : List Nat :=
  let n := c.toNat
  if n < 0x80 then [n]
  else if n < 0x800 then [0xC0 + n / 64, 0x80 + n % 64]
  else if n < 0x10000 then
    [0xE0 + n / 4096, 0x80 + n / 64 % 64, 0x80 + n % 64]
  else
    [0xF0 + n / 0x40000, 0x80 + n / 4096 % 64, 0x80 + n / 64 % 64,
      0x80 + n % 64]

/-- Models Python `str.encode()` (UTF-8). -/
def utf8Encode (s : List Char) : List Nat := s.flatMap utf8EncodeChar

/-- Decode one UTF-8 scalar value from the head of a byte string:
`(some c, rest)` on a well-formed leading sequence, `(none, rest)` on
an ill-formed head (skipping at least the offending lead byte). -/
def utf8DecodeOne : List Nat → Option Char × List Nat
  | [] => (none, [])
  | b :: bs =>
    if b < 0x80 then (some (Char.ofNat b), bs)
    else if 0xC2 ≤ b ∧ b ≤ 0xDF then
      match bs with
      | b2 :: bs2 =>
        if 0x80 ≤ b2 ∧ b2 ≤ 0xBF then
          (some (Char.ofNat ((b - 0xC0) * 64 + (b2 - 0x80))), bs2)
        else (none, b2 :: bs2)
      | [] => (none, [])
    else if 0xE0 ≤ b ∧ b ≤ 0xEF then
      match bs with
      | b2 :: b3 :: bs3 =>
        if (0x80 ≤ b2 ∧ b2 ≤ 0xBF) ∧ (0x80 ≤ b3 ∧ b3 ≤ 0xBF) ∧
            (b = 0xE0 → 0xA0 ≤ b2) ∧ (b = 0xED → b2 ≤ 0x9F) then
          (some (Char.ofNat ((b - 0xE0) * 4096 + (b2 - 0x80) * 64 + (b3 - 0x80))),
            bs3)
        else (none, bs)
      | _ => (none, [])
    else if 0xF0 ≤ b ∧ b ≤ 0xF4 then
      match bs with
      | b2 :: b3 :: b4 :: bs4 =>
        if (0x80 ≤ b2 ∧ b2 ≤ 0xBF) ∧ (0x80 ≤ b3 ∧ b3 ≤ 0xBF) ∧
            (0x80 ≤ b4 ∧ b4 ≤ 0xBF) ∧
            (b = 0xF0 → 0x90 ≤ b2) ∧ (b = 0xF4 → b2 ≤ 0x8F) then
          (some (Char.ofNat ((b - 0xF0) * 0x40000 + (b2 - 0x80) * 4096 +
            (b3 - 0x80) * 64 + (b4 - 0x80))), bs4)
        else (none, bs)
      | _ => (none, [])
    else (none, bs)

/-- Fuelled decode loop (one fuel per decoded unit; `fuel ≥ length`
suffices since every step consumes at least one byte). -/
def utf8DecodeLoop (repl : List Char) : Nat → List Nat → List Char
  | 0, _ => []
  | _ + 1, [] => []
  | f + 1, b :: bs =>
    match utf8DecodeOne (b :: bs) with
    | (some c, rest) => c :: utf8DecodeLoop repl f rest
    | (none, rest) => repl ++ utf8DecodeLoop repl f rest

/-- Strict UTF-8 decoder; an ill-formed subsequence contributes `repl`
(`repl = []` models `bytes.decode(errors="ignore")`).  Well-formed
input — the only case the claims below depend on — is decoded exactly;
ill-formed input drops bytes per `utf8DecodeOne`, an adequate model of
CPython s error handlers for the properties proved here. -/
def utf8DecodeWith (repl : List Char) (bs : List Nat) : List Char :=
  utf8DecodeLoop repl bs.length bs

/-- Models `bytes.decode(errors="ignore")`. -/
def utf8DecodeIgnore (bs : List Nat) : List Char := utf8DecodeWith [] bs

/-- Models `bytes.decode(errors="replace")` (used by `urllib.parse.unquote`). -/
def utf8DecodeReplace (bs : List Nat) : List Char :=
  utf8DecodeWith [Char.ofNat 0xFFFD] bs

/-! ## URL-safe base64 (`base64.urlsafe_b64encode` / `urlsafe_b64decode`) -/

/-- The URL-safe base64 alphabet: six-bit value to character. -/
def sixToChar (v : Nat) : Char :=
  if v < 26 then Char.ofNat (65 + v)
  else if v < 52 then Char.ofNat (97 + (v - 26))
  else if v < 62 then Char.ofNat (48 + (v - 52))
  else if v = 62 then '-' else '_'

/-- The URL-safe base64 alphabet on ASCII byte values: byte to six-bit
value; `none` for bytes outside the alphabet (including pad `'='`). -/
def sixOfByte (b : Nat) : Option Nat :=
  if 65 ≤ b ∧ b ≤ 90 then some (b - 65)
  else if 97 ≤ b ∧ b ≤ 122 then some (b - 97 + 26)
  else if 48 ≤ b ∧ b ≤ 57 then some (b - 48 + 52)
  else if b = 45 then some 62
  else if b = 95 then some 63
  else none

/-- Models `base64.urlsafe_b64encode` on a byte string, producing the
character string (its bytes are ASCII). -/
def b64urlEncode : List Nat → List Char
  | [] => []
  | [b0] => [sixToChar (b0 / 4), sixToChar (b0 % 4 * 16), '=', '=']
  | [b0, b1] =>
    [sixToChar (b0 / 4), sixToChar (b0 % 4 * 16 + b1 / 16),
      sixToChar (b1 % 16 * 4), '=']
  | b0 :: b1 :: b2 :: rest =>
    sixToChar (b0 / 4) :: sixToChar (b0 % 4 * 16 + b1 / 16) ::
      sixToChar (b1 % 16 * 4 + b2 / 64) :: sixToChar (b2 % 64) ::
        b64urlEncode rest

/-- Models `base64.urlsafe_b64decode` on a byte string, for inputs over
the URL-safe alphabet with standard trailing `'='` padding; any other
input is an error (`none`).  (CPython's lenient decoder additionally
discards foreign characters and tolerates some degenerate paddings,
returning junk bytes; in `try_decode_get2_in` both behaviours flow into
the same `None`/non-`http` outcome, so this stricter model is adequate
for the claims proved about it.) -/
def b64urlDecode : List Nat → Option (List Nat)
  | [] => some []
  | c0 :: c1 :: c2 :: c3 :: rest =>
    match sixOfByte c0, sixOfByte c1 with
    | some v0, some v1 =>
      if c2 = 61 then
        if c3 = 61 ∧ rest = [] then some [v0 * 4 + v1 / 16] else none
      else
        match sixOfByte c2 with
        | some v2 =>
          if c3 = 61 then
            if rest = [] then some [v0 * 4 + v1 / 16, v1 % 16 * 16 + v2 / 4]
            else none
          else
            match sixOfByte c3 with
            | some v3 =>
              (b64urlDecode rest).map
                (fun bs => (v0 * 4 + v1 / 16) :: (v1 % 16 * 16 + v2 / 4) ::
                  (v2 % 4 * 64 + v3) :: bs)
            | none => none
        | none => none
    | _, _ => none
  | _ => none

/-- Python `(s + "=").rstrip("=")`-style removal of trailing pad
characters, used to build unpadded relay payloads. -/
def dropPadRight : List Char → List Char
  | [] => []
  | c :: cs =>
    match dropPadRight cs with
    | [] => if c = '=' then [] else [c]
    | r => c :: r

/-! ## `urllib.parse.urlparse` and `unquote` -/

/-- Components produced by `urllib.parse.urlparse`. -/
structure UrlParts where
  scheme : List Char
  netloc : List Char
  path : List Char
  query : List Char
  fragment : List Char
  deriving Repr, DecidableEq

/-- Characters allowed in a URL scheme (CPython `scheme_chars`). -/
def isSchemeChar (c : Char) : Bool :=
  ('a' ≤ c ∧ c ≤ 'z') ∨ ('A' ≤ c ∧ c ≤ 'Z') ∨ ('0' ≤ c ∧ c ≤ '9') ∨
    c = '+' ∨ c = '-' ∨ c = '.'

/-- Split a netloc-style string at the first of `/ ? #`. -/
def takeNetloc : List Char → List Char × List Char
  | [] => ([], [])
  | c :: cs =>
    if c = '/' ∨ c = '?' ∨ c = '#' then ([], c :: cs)
    else
      let p := takeNetloc cs
      (c :: p.1, p.2)

/-- Models `urllib.parse.urlparse`: scheme (lowered) before the first
`':'` when its characters are scheme characters, then `//netloc` up to
the first of `/ ? #`, then the fragment after the first `'#'`, then the
query after the first `'?'`.  The `';params'` split of the last path
segment is omitted (no URL handled by the engine carries params). -/
def pyUrlparse (url : List Char) : UrlParts :=
  let (scheme, rest) :=
    match splitFirst ':' url with
    | some (before, after) =>
      if before ≠ [] ∧ before.all isSchemeChar then (pyLower before, after)
      else ([], url)
    | none => ([], url)
  let (netloc, rest) :=
    match rest with
    | c1 :: c2 :: r =>
      if c1 = '/' ∧ c2 = '/' then takeNetloc r else ([], rest)
    | _ => ([], rest)
  let (rest, fragment) :=
    match splitFirst '#' rest with
    | some (before, after) => (before, after)
    | none => (rest, [])
  let (path, query) :=
    match splitFirst '?' rest with
    | some (before, after) => (before, after)
    | none => (rest, [])
  ⟨scheme, netloc, path, query, fragment⟩

/-- Hexadecimal digit value of a character, if any. -/
def hexVal (c : Char) : Option Nat :=
  if '0' ≤ c ∧ c ≤ '9' then some (c.toNat - 48)
  else if 'a' ≤ c ∧ c ≤ 'f' then some (c.toNat - 97 + 10)
  else if 'A' ≤ c ∧ c ≤ 'F' then some (c.toNat - 65 + 10)
  else none

/-- Collect the maximal run of leading `%XX` escapes as byte values,
returning the bytes and the remaining characters. -/
def percentRun : List Char → List Nat × List Char
  | '%' :: h1 :: h2 :: rest =>
    match hexVal h1, hexVal h2 with
    | some a, some b =>
      let pr := percentRun rest
      ((16 * a + b) :: pr.1, pr.2)
    | _, _ => ([], '%' :: h1 :: h2 :: rest)
  | s => ([], s)

theorem percentRun_length (s : List Char) :
    (percentRun s).2.length ≤ s.length := by
  induction s using percentRun.induct with
  | case1 h1 h2 rest a b ha hb ih =>
    simp only [percentRun, ha, hb, List.length_cons]
    omega
  | case2 h1 h2 rest hab => simp [percentRun.eq_def]
  | case3 s h => simp [percentRun.eq_def]

theorem percentRun_length_lt (s : List Char)
    (h : (percentRun s).1 ≠ []) : (percentRun s).2.length + 3 ≤ s.length := by
  induction s using percentRun.induct with
  | case1 h1 h2 rest a b ha hb ih =>
    simp only [percentRun, ha, hb, List.length_cons]
    have := percentRun_length rest
    omega
  | case2 h1 h2 rest hab =>
    rw [percentRun.eq_def] at h
    simp at h
  | case3 s hs =>
    rw [percentRun.eq_def] at h
    split at h <;> simp_all

/-- Recursion core of `pyUnquote`, structurally recursive on a fuel
argument (`fuel ≥ s.length` suffices; see `pyUnquote`). -/
def pyUnquoteFuel : Nat → List Char → List Char
  | 0, _ => []
  | _ + 1, [] => []
  | f + 1, c :: cs =>
    if (percentRun (c :: cs)).1 = [] then c :: pyUnquoteFuel f cs
    else utf8DecodeReplace (percentRun (c :: cs)).1 ++
      pyUnquoteFuel f (percentRun (c :: cs)).2

/-- Models `urllib.parse.unquote`: each maximal run of `%XX` escapes is
decoded as UTF-8 with `errors="replace"`; other characters (including
a stray `'%'`) pass through. -/
def pyUnquote (s : List Char) : List Char := pyUnquoteFuel s.length s

/-! ## `try_decode_get2_in` (bot.py lines 53-104) -/

/-- The candidate-picking loop of `try_decode_get2_in` (bot.py lines
69-76): the first `key=value` part whose value is longer than 8
characters. -/
def findCandidateLoop : List (List Char) → Option (List Char)
  | [] => none
  | p :: ps =>
    match splitFirst '=' p with
    | some kv => if 8 < kv.2.length then some kv.2 else findCandidateLoop ps
    | none => findCandidateLoop ps

/-- Fallback candidate (bot.py line 78): `parts[-1].split("=", 1)[-1]`. -/
def lastPartFallback (parts : List (List Char)) : List Char :=
  match parts.getLast? with
  | some p => afterFirst '=' p
  | none => []

/-- Candidate selection of `try_decode_get2_in` (bot.py lines 66-80):
if the query contains `'='`, the first value longer than 8 characters,
else the fallback from the last `&`-part; if no `'='` at all, the raw
query. -/
def selectCandidate (query : List Char) : List Char :=
  if strIn ['='] query then
    let parts := splitOnChar '&' query
    match findCandidateLoop parts with
    | some v => v
    | none => lastPartFallback parts
  else query

/-- The base64 block of `try_decode_get2_in` (bot.py lines 85-96):
encode the candidate to bytes, pad to a multiple of 4 with `'='`
(byte 61), URL-safe base64 decode, then decode the bytes
(`errors="ignore"`); `none` models the swallowed exception. -/
def tryB64Block (cand : List Char) : Option (List Char) :=
  let b := utf8Encode cand
  let padding := 4 - b.length % 4
  let b := if padding ≠ 0 ∧ padding < 4 then b ++ List.replicate padding 61 else b
  match b64urlDecode b with
  | some bytes => some (utf8DecodeIgnore bytes)
  | none => none

/-- The tail of `try_decode_get2_in` (bot.py lines 82-104): URL-unquote
the candidate, try the base64 block, return the decoded value when it
looks like a URL, else fall back to the unquoted candidate itself when
that looks like a URL, else `None`. -/
def decodeCandidate (candidate : List Char) : Option (List Char) :=
  let cand := pyUnquote candidate
  match tryB64Block cand with
  | some decoded =>
    if "http".toList.isPrefixOf decoded then some decoded
    else if "http".toList.isPrefixOf cand then some cand
    else none
  | none =>
    if "http".toList.isPrefixOf cand then some cand
    else none

/-- Models `try_decode_get2_in` (bot.py lines 53-104): decode an
encoded target from a `get2.in`-style relay URL; `none` on any
failure. -/
def tryDecodeGet2In (url : List Char) : Option (List Char) :=
  let parsed := pyUrlparse url
  let host := pyLower parsed.netloc
  if ¬ strIn "get2.in".toList host then none
  else
    let query :=
      if parsed.query ≠ [] then parsed.query else afterFirst '?' parsed.path
    if query = [] then none
    else decodeCandidate (selectCandidate query)


/-! ## UTF-8 round trip -/


theorem char_valid_cases (c : Char) :
    c.toNat < 0xD800 ∨ (0xDFFF < c.toNat ∧ c.toNat < 0x110000) := by
  have h := c.valid
  simp [UInt32.isValidChar, Nat.isValidChar] at h
  exact h

set_option maxRecDepth 8000 in
theorem utf8DecodeOne_encodeChar (c : Char) (rest : List Nat) :
    utf8DecodeOne (utf8EncodeChar c ++ rest) = (some c, rest) := by
  have hv := char_valid_cases c
  have hofn := Char.ofNat_toNat c
  unfold utf8EncodeChar
  by_cases h1 : c.toNat < 0x80
  · rw [if_pos h1]
    simp only [List.cons_append, List.nil_append]
    rw [utf8DecodeOne.eq_def]
    dsimp only
    rw [if_pos h1, hofn]
  · by_cases h2 : c.toNat < 0x800
    · rw [if_neg h1, if_pos h2]
      simp only [List.cons_append, List.nil_append]
      rw [utf8DecodeOne.eq_def]
      dsimp only
      rw [if_neg (by omega), if_pos (by constructor <;> omega)]
      rw [if_pos (by constructor <;> omega)]
      rw [Prod.mk.injEq]
      refine ⟨?_, rfl⟩
      have harg : (0xC0 + c.toNat / 64 - 0xC0) * 64 +
          (0x80 + c.toNat % 64 - 0x80) = c.toNat := by omega
      rw [harg, hofn]
    · by_cases h3 : c.toNat < 0x10000
      · rw [if_neg h1, if_neg h2, if_pos h3]
        simp only [List.cons_append, List.nil_append]
        rw [utf8DecodeOne.eq_def]
        dsimp only
        rw [if_neg (by omega), if_neg (by omega), if_pos (by constructor <;> omega)]
        rw [if_pos (by
          refine ⟨⟨by omega, by omega⟩, ⟨by omega, by omega⟩, ?_, ?_⟩ <;>
            intro hb <;> omega)]
        rw [Prod.mk.injEq]
        refine ⟨?_, rfl⟩
        have harg : (0xE0 + c.toNat / 4096 - 0xE0) * 4096 +
            (0x80 + c.toNat / 64 % 64 - 0x80) * 64 +
            (0x80 + c.toNat % 64 - 0x80) = c.toNat := by omega
        rw [harg, hofn]
      · rw [if_neg h1, if_neg h2, if_neg h3]
        simp only [List.cons_append, List.nil_append]
        rw [utf8DecodeOne.eq_def]
        dsimp only
        rw [if_neg (by omega), if_neg (by omega), if_neg (by omega),
          if_pos (by constructor <;> omega)]
        rw [if_pos (by
          refine ⟨⟨by omega, by omega⟩, ⟨by omega, by omega⟩, ⟨by omega, by omega⟩,
            ?_, ?_⟩ <;> intro hb <;> omega)]
        rw [Prod.mk.injEq]
        refine ⟨?_, rfl⟩
        have harg : (0xF0 + c.toNat / 0x40000 - 0xF0) * 0x40000 +
            (0x80 + c.toNat / 4096 % 64 - 0x80) * 4096 +
            (0x80 + c.toNat / 64 % 64 - 0x80) * 64 +
            (0x80 + c.toNat % 64 - 0x80) = c.toNat := by omega
        rw [harg, hofn]

theorem utf8EncodeChar_ne_nil (c : Char) : utf8EncodeChar c ≠ [] := by
  simp only [utf8EncodeChar]
  split_ifs <;> simp

theorem utf8DecodeLoop_encode (repl : List Char) :
    ∀ (s : List Char) (f : Nat), s.length ≤ f →
      utf8DecodeLoop repl f (utf8Encode s) = s := by
  intro s
  induction s with
  | nil =>
    intro f _
    cases f <;> rfl
  | cons c cs ih =>
    intro f hf
    cases f with
    | zero => simp at hf
    | succ f =>
      have hne : utf8Encode (c :: cs) = utf8EncodeChar c ++ utf8Encode cs := by
        simp [utf8Encode]
      obtain ⟨e1, erest, he⟩ : ∃ e1 erest, utf8EncodeChar c = e1 :: erest := by
        rcases h : utf8EncodeChar c with _ | ⟨e1, erest⟩
        · exact absurd h (utf8EncodeChar_ne_nil c)
        · exact ⟨e1, erest, rfl⟩
      rw [hne, he, List.cons_append, utf8DecodeLoop]
      rw [← List.cons_append, ← he, utf8DecodeOne_encodeChar]
      dsimp only
      rw [ih f (by simpa using hf)]

theorem utf8DecodeWith_encode (repl : List Char) (s : List Char) :
    utf8DecodeWith repl (utf8Encode s) = s := by
  have hlen : s.length ≤ (utf8Encode s).length := by
    induction s with
    | nil => simp
    | cons c cs ih =>
      have h1 : utf8Encode (c :: cs) = utf8EncodeChar c ++ utf8Encode cs := by
        simp [utf8Encode]
      rw [h1, List.length_append, List.length_cons]
      have h2 : 1 ≤ (utf8EncodeChar c).length := by
        rcases h : utf8EncodeChar c with _ | ⟨e1, erest⟩
        · exact absurd h (utf8EncodeChar_ne_nil c)
        · simp
      omega
  exact utf8DecodeLoop_encode repl s (utf8Encode s).length hlen

/-! ## base64 round trip -/

/-- The padding-free part of `b64urlEncode` (what remains after
`dropPadRight`). -/
def b64urlEncodeNoPad : List Nat → List Char
  | [] => []
  | [b0] => [sixToChar (b0 / 4), sixToChar (b0 % 4 * 16)]
  | [b0, b1] =>
    [sixToChar (b0 / 4), sixToChar (b0 % 4 * 16 + b1 / 16),
      sixToChar (b1 % 16 * 4)]
  | b0 :: b1 :: b2 :: rest =>
    sixToChar (b0 / 4) :: sixToChar (b0 % 4 * 16 + b1 / 16) ::
      sixToChar (b1 % 16 * 4 + b2 / 64) :: sixToChar (b2 % 64) ::
        b64urlEncodeNoPad rest

theorem sixToChar_roundtrip : ∀ v < 64, sixOfByte (sixToChar v).toNat = some v := by
  decide

theorem sixToChar_ascii : ∀ v < 64, (sixToChar v).toNat < 0x80 := by decide

theorem sixToChar_ne_pad : ∀ v < 64, (sixToChar v).toNat ≠ 61 := by decide

theorem sixToChar_notSpecial :
    ∀ v < 64, sixToChar v ≠ ':' ∧ sixToChar v ≠ '/' ∧ sixToChar v ≠ '?' ∧
      sixToChar v ≠ '#' ∧ sixToChar v ≠ '=' ∧ sixToChar v ≠ '&' ∧
      sixToChar v ≠ '%' := by decide

/-- Every character of the padding-free encoding is a six-bit image. -/
theorem b64urlEncodeNoPad_mem (bs : List Nat) (hb : ∀ b ∈ bs, b < 256) :
    ∀ c ∈ b64urlEncodeNoPad bs, ∃ v, v < 64 ∧ c = sixToChar v := by
  induction bs using b64urlEncodeNoPad.induct with
  | case1 => intro c hc; simp [b64urlEncodeNoPad] at hc
  | case2 b0 =>
    intro c hc
    have h0 : b0 < 256 := hb b0 (by simp)
    simp only [b64urlEncodeNoPad, List.mem_cons, List.mem_singleton] at hc
    rcases hc with h | h | h
    · exact ⟨b0 / 4, by omega, h⟩
    · exact ⟨b0 % 4 * 16, by omega, h⟩
    · simp at h
  | case3 b0 b1 =>
    intro c hc
    have h0 : b0 < 256 := hb b0 (by simp)
    have h1 : b1 < 256 := hb b1 (by simp)
    simp only [b64urlEncodeNoPad, List.mem_cons, List.mem_singleton] at hc
    rcases hc with h | h | h | h
    · exact ⟨b0 / 4, by omega, h⟩
    · exact ⟨b0 % 4 * 16 + b1 / 16, by omega, h⟩
    · exact ⟨b1 % 16 * 4, by omega, h⟩
    · simp at h
  | case4 b0 b1 b2 rest ih =>
    intro c hc
    have h0 : b0 < 256 := hb b0 (by simp)
    have h1 : b1 < 256 := hb b1 (by simp)
    have h2 : b2 < 256 := hb b2 (by simp)
    simp only [b64urlEncodeNoPad, List.mem_cons] at hc
    rcases hc with h | h | h | h | h
    · exact ⟨b0 / 4, by omega, h⟩
    · exact ⟨b0 % 4 * 16 + b1 / 16, by omega, h⟩
    · exact ⟨b1 % 16 * 4 + b2 / 64, by omega, h⟩
    · exact ⟨b2 % 64, by omega, h⟩
    · exact ih (fun b hbm => hb b (by simp [hbm])) c h

/-- `dropPadRight` distributes over an append whose right part does not
vanish. -/
theorem dropPadRight_append_of_ne_nil (xs ys : List Char)
    (h : dropPadRight ys ≠ []) :
    dropPadRight (xs ++ ys) = xs ++ dropPadRight ys := by
  induction xs with
  | nil => simp
  | cons x xs ih =>
    rw [List.cons_append, dropPadRight, ih]
    cases hys : xs ++ dropPadRight ys with
    | nil =>
      rcases List.append_eq_nil.mp hys with ⟨-, h2⟩
      exact absurd h2 h
    | cons a l =>
      rw [List.cons_append, hys]

/-- `dropPadRight` of the padded encoding is the padding-free encoding. -/
theorem dropPadRight_b64urlEncode (bs : List Nat) (hb : ∀ b ∈ bs, b < 256) :
    dropPadRight (b64urlEncode bs) = b64urlEncodeNoPad bs := by
  induction bs using b64urlEncodeNoPad.induct with
  | case1 => rfl
  | case2 b0 =>
    have h0 : b0 < 256 := hb b0 (by simp)
    have hne1 : sixToChar (b0 / 4) ≠ '=' :=
      ((sixToChar_notSpecial _ (by omega)).2.2.2.2).1
    have hne2 : sixToChar (b0 % 4 * 16) ≠ '=' :=
      ((sixToChar_notSpecial _ (by omega)).2.2.2.2).1
    simp [b64urlEncode, b64urlEncodeNoPad, dropPadRight, hne1, hne2]
  | case3 b0 b1 =>
    have h0 : b0 < 256 := hb b0 (by simp)
    have h1 : b1 < 256 := hb b1 (by simp)
    have hne1 : sixToChar (b0 / 4) ≠ '=' :=
      ((sixToChar_notSpecial _ (by omega)).2.2.2.2).1
    have hne2 : sixToChar (b0 % 4 * 16 + b1 / 16) ≠ '=' :=
      ((sixToChar_notSpecial _ (by omega)).2.2.2.2).1
    have hne3 : sixToChar (b1 % 16 * 4) ≠ '=' :=
      ((sixToChar_notSpecial _ (by omega)).2.2.2.2).1
    simp [b64urlEncode, b64urlEncodeNoPad, dropPadRight, hne1, hne2, hne3]
  | case4 b0 b1 b2 rest ih =>
    have h0 : b0 < 256 := hb b0 (by simp)
    have h1 : b1 < 256 := hb b1 (by simp)
    have h2 : b2 < 256 := hb b2 (by simp)
    have ih2 := ih (fun b hbm => hb b (by simp [hbm]))
    have hstep : b64urlEncode (b0 :: b1 :: b2 :: rest) =
        [sixToChar (b0 / 4), sixToChar (b0 % 4 * 16 + b1 / 16),
          sixToChar (b1 % 16 * 4 + b2 / 64), sixToChar (b2 % 64)] ++
          b64urlEncode rest := by
      rfl
    have hstep2 : b64urlEncodeNoPad (b0 :: b1 :: b2 :: rest) =
        [sixToChar (b0 / 4), sixToChar (b0 % 4 * 16 + b1 / 16),
          sixToChar (b1 % 16 * 4 + b2 / 64), sixToChar (b2 % 64)] ++
          b64urlEncodeNoPad rest := by
      rfl
    rcases hr : rest with _ | ⟨r0, rtail⟩
    · subst hr
      have hne1 : sixToChar (b0 / 4) ≠ '=' :=
        ((sixToChar_notSpecial _ (by omega)).2.2.2.2).1
      have hne2 : sixToChar (b0 % 4 * 16 + b1 / 16) ≠ '=' :=
        ((sixToChar_notSpecial _ (by omega)).2.2.2.2).1
      have hne3 : sixToChar (b1 % 16 * 4 + b2 / 64) ≠ '=' :=
        ((sixToChar_notSpecial _ (by omega)).2.2.2.2).1
      have hne4 : sixToChar (b2 % 64) ≠ '=' :=
        ((sixToChar_notSpecial _ (by omega)).2.2.2.2).1
      simp [b64urlEncode, b64urlEncodeNoPad, dropPadRight, hne1, hne2, hne3, hne4]
    · subst hr
      have hnn : b64urlEncodeNoPad (r0 :: rtail) ≠ [] := by
        rcases rtail with _ | ⟨r1, rtail2⟩
        · simp [b64urlEncodeNoPad]
        · rcases rtail2 with _ | ⟨r2, rtail3⟩ <;> simp [b64urlEncodeNoPad]
      rw [hstep, hstep2, dropPadRight_append_of_ne_nil _ _ (by rw [ih2]; exact hnn),
        ih2]

/-- The pad bytes `try_decode_get2_in` appends for a payload of length
`n` (bot.py lines 87-90). -/
def padFor (n : Nat) : List Nat :=
  if n % 4 = 0 then [] else List.replicate (4 - n % 4) 61

theorem padFor_add4 (n : Nat) : padFor (4 + n) = padFor n := by
  simp [padFor, Nat.add_mod]

set_option maxRecDepth 8000 in
/-- Re-padding the padding-free encoding and decoding recovers the
original bytes. -/
theorem b64urlDecode_repad (bs : List Nat) (hb : ∀ b ∈ bs, b < 256) :
    b64urlDecode ((b64urlEncodeNoPad bs).map Char.toNat ++
      padFor (b64urlEncodeNoPad bs).length) = some bs := by
  induction bs using b64urlEncodeNoPad.induct with
  | case1 => rfl
  | case2 b0 =>
    have h0 : b0 < 256 := hb b0 (by simp)
    have e0 := sixToChar_roundtrip (b0 / 4) (by omega)
    have e1 := sixToChar_roundtrip (b0 % 4 * 16) (by omega)
    simp only [b64urlEncodeNoPad, List.map_cons, List.map_nil, List.length_cons,
      List.length_nil]
    have hpad : padFor (0 + 1 + 1) = [61, 61] := rfl
    rw [hpad]
    simp only [List.cons_append, List.nil_append]
    rw [b64urlDecode.eq_def]
    dsimp only
    simp only [e0, e1]
    norm_num
    omega
  | case3 b0 b1 =>
    have h0 : b0 < 256 := hb b0 (by simp)
    have h1 : b1 < 256 := hb b1 (by simp)
    have e0 := sixToChar_roundtrip (b0 / 4) (by omega)
    have e1 := sixToChar_roundtrip (b0 % 4 * 16 + b1 / 16) (by omega)
    have e2 := sixToChar_roundtrip (b1 % 16 * 4) (by omega)
    have hne2 := sixToChar_ne_pad (b1 % 16 * 4) (by omega)
    simp only [b64urlEncodeNoPad, List.map_cons, List.map_nil, List.length_cons,
      List.length_nil]
    have hpad : padFor (0 + 1 + 1 + 1) = [61] := rfl
    rw [hpad]
    simp only [List.cons_append, List.nil_append]
    rw [b64urlDecode.eq_def]
    dsimp only
    simp only [e0, e1, if_neg hne2, e2]
    norm_num
    constructor <;> omega
  | case4 b0 b1 b2 rest ih =>
    have h0 : b0 < 256 := hb b0 (by simp)
    have h1 : b1 < 256 := hb b1 (by simp)
    have h2 : b2 < 256 := hb b2 (by simp)
    have ih2 := ih (fun b hbm => hb b (by simp [hbm]))
    have e0 := sixToChar_roundtrip (b0 / 4) (by omega)
    have e1 := sixToChar_roundtrip (b0 % 4 * 16 + b1 / 16) (by omega)
    have e2 := sixToChar_roundtrip (b1 % 16 * 4 + b2 / 64) (by omega)
    have e3 := sixToChar_roundtrip (b2 % 64) (by omega)
    have hne2 := sixToChar_ne_pad (b1 % 16 * 4 + b2 / 64) (by omega)
    have hne3 := sixToChar_ne_pad (b2 % 64) (by omega)
    simp only [b64urlEncodeNoPad, List.map_cons, List.length_cons]
    have hlen : (b64urlEncodeNoPad rest).length + 1 + 1 + 1 + 1 =
        4 + (b64urlEncodeNoPad rest).length := by omega
    rw [hlen, padFor_add4]
    simp only [List.cons_append]
    rw [b64urlDecode.eq_def]
    dsimp only
    simp only [e0, e1, e2, e3, if_neg hne2, if_neg hne3, ih2, Option.map_some',
      Option.some.injEq, List.cons.injEq]
    refine ⟨by omega, by omega, by omega, trivial⟩

/-! ## Evaluation lemmas for the decoder on relay URLs -/

theorem splitFirst_none (c : Char) (l : List Char) (h : ∀ x ∈ l, x ≠ c) :
    splitFirst c l = none := by
  induction l with
  | nil => rfl
  | cons x xs ih =>
    simp only [splitFirst, if_neg (h x (by simp))]
    rw [ih (fun y hy => h y (by simp [hy]))]
    rfl

theorem strIn_single_false (c : Char) (s : List Char) (h : ∀ x ∈ s, x ≠ c) :
    strIn [c] s = false := by
  induction s with
  | nil => rfl
  | cons x xs ih =>
    have hx : (c == x) = false := by
      simp only [beq_eq_false_iff_ne, ne_eq]
      intro hcx
      exact absurd hcx.symm (h x (by simp))
    simp [strIn, List.isPrefixOf, hx, ih (fun y hy => h y (by simp [hy]))]

theorem percentRun_not_percent (c : Char) (cs : List Char) (h : c ≠ '%') :
    percentRun (c :: cs) = ([], c :: cs) := by
  rw [percentRun.eq_def]
  split <;> first | rfl | simp_all

theorem pyUnquoteFuel_no_percent (f : Nat) (s : List Char) (hf : s.length ≤ f)
    (h : ∀ x ∈ s, x ≠ '%') : pyUnquoteFuel f s = s := by
  induction f generalizing s with
  | zero =>
    cases s with
    | nil => rfl
    | cons c cs => simp at hf
  | succ f ih =>
    cases s with
    | nil => rfl
    | cons c cs =>
      rw [pyUnquoteFuel, percentRun_not_percent c cs (h c (by simp))]
      rw [ih cs (by simp at hf; omega) (fun y hy => h y (by simp [hy]))]
      simp

theorem pyUnquote_no_percent (s : List Char) (h : ∀ x ∈ s, x ≠ '%') :
    pyUnquote s = s :=
  pyUnquoteFuel_no_percent s.length s le_rfl h

theorem utf8EncodeChar_lt256 (c : Char) : ∀ b ∈ utf8EncodeChar c, b < 256 := by
  have hv := char_valid_cases c
  intro b hb
  simp only [utf8EncodeChar] at hb
  split_ifs at hb <;> simp at hb <;> omega

theorem utf8Encode_lt256 (s : List Char) : ∀ b ∈ utf8Encode s, b < 256 := by
  intro b hb
  simp only [utf8Encode, List.mem_flatMap] at hb
  obtain ⟨c, -, hbc⟩ := hb
  exact utf8EncodeChar_lt256 c b hbc

theorem utf8Encode_ascii (s : List Char) (h : ∀ c ∈ s, c.toNat < 0x80) :
    utf8Encode s = s.map Char.toNat := by
  induction s with
  | nil => rfl
  | cons c cs ih =>
    have hstep : utf8Encode (c :: cs) = utf8EncodeChar c ++ utf8Encode cs := by
      simp [utf8Encode]
    have hc : utf8EncodeChar c = [c.toNat] := by
      unfold utf8EncodeChar
      rw [if_pos (h c (by simp))]
    rw [hstep, hc, ih (fun x hx => h x (by simp [hx]))]
    rfl

theorem utf8Encode_ne_nil (s : List Char) (h : s ≠ []) : utf8Encode s ≠ [] := by
  cases s with
  | nil => exact absurd rfl h
  | cons c cs =>
    have hstep : utf8Encode (c :: cs) = utf8EncodeChar c ++ utf8Encode cs := by
      simp [utf8Encode]
    rw [hstep]
    intro hap
    rcases List.append_eq_nil.mp hap with ⟨h1, -⟩
    exact utf8EncodeChar_ne_nil c h1

theorem b64urlEncodeNoPad_ne_nil (bs : List Nat) (h : bs ≠ []) :
    b64urlEncodeNoPad bs ≠ [] := by
  rcases bs with _ | ⟨b0, tl⟩
  · exact absurd rfl h
  · rcases tl with _ | ⟨b1, tl2⟩
    · simp [b64urlEncodeNoPad]
    · rcases tl2 with _ | ⟨b2, tl3⟩ <;> simp [b64urlEncodeNoPad]

/-- `urlparse` of a relay URL `https://get2.in/?<pay>` for a payload
free of `'#'`. -/
theorem pyUrlparse_relay (pay : List Char) (h : ∀ c ∈ pay, c ≠ '#') :
    pyUrlparse ("https://get2.in/?".toList ++ pay) =
      ⟨"https".toList, "get2.in".toList, ['/'], pay, []⟩ := by
  have hsp : splitFirst ':' ("https://get2.in/?".toList ++ pay) =
      some ("https".toList, "//get2.in/?".toList ++ pay) := by
    simp [splitFirst]
  have hfr : splitFirst '#' ("/?".toList ++ pay) = none := by
    have hn : splitFirst '#' pay = none := splitFirst_none '#' pay h
    simp [splitFirst, hn]
  have hq : splitFirst '?' ("/?".toList ++ pay) = some (['/'], pay) := by
    simp [splitFirst]
  have htn : takeNetloc ("get2.in/?".toList ++ pay) =
      ("get2.in".toList, "/?".toList ++ pay) := by
    simp [takeNetloc]
  have hcons : ("//get2.in/?".toList ++ pay) =
      '/' :: '/' :: ("get2.in/?".toList ++ pay) := rfl
  unfold pyUrlparse
  rw [hsp]
  dsimp only
  rw [if_pos (by constructor <;> decide)]
  have hlow : pyLower "https".toList = "https".toList := by decide
  rw [hlow, hcons]
  dsimp only
  rw [if_pos (by exact ⟨rfl, rfl⟩)]
  rw [htn]
  dsimp only
  rw [hfr]
  dsimp only
  rw [hq]

theorem tryB64Block_noPad (bs : List Nat) (hb : ∀ b ∈ bs, b < 256) :
    tryB64Block (b64urlEncodeNoPad bs) = some (utf8DecodeIgnore bs) := by
  have hmem := b64urlEncodeNoPad_mem bs hb
  have hascii : ∀ c ∈ b64urlEncodeNoPad bs, c.toNat < 0x80 := by
    intro c hc
    obtain ⟨v, hv, rfl⟩ := hmem c hc
    exact sixToChar_ascii v hv
  unfold tryB64Block
  rw [utf8Encode_ascii _ hascii]
  have hpad :
      (if 4 - ((b64urlEncodeNoPad bs).map Char.toNat).length % 4 ≠ 0 ∧
          4 - ((b64urlEncodeNoPad bs).map Char.toNat).length % 4 < 4 then
        (b64urlEncodeNoPad bs).map Char.toNat ++
          List.replicate (4 - ((b64urlEncodeNoPad bs).map Char.toNat).length % 4) 61
      else (b64urlEncodeNoPad bs).map Char.toNat) =
        (b64urlEncodeNoPad bs).map Char.toNat ++
          padFor (b64urlEncodeNoPad bs).length := by
    simp only [List.length_map]
    by_cases h0 : (b64urlEncodeNoPad bs).length % 4 = 0
    · rw [if_neg (by omega), padFor, if_pos h0, List.append_nil]
    · rw [if_pos (by constructor <;> omega), padFor, if_neg h0]
  dsimp only
  rw [hpad, b64urlDecode_repad bs hb]

/-- Claim C4 (corrected): for every destination string `d` starting
with `"http"`, the decoder applied to a relay URL whose query is the
URL-safe base64 encoding of `d` **with the `'='` padding stripped**
returns exactly `d`.  (The claim as stated also demanded this for the
padded form; `claimC4_counterexample` shows the padded form returns
`None` instead, because the pad `'='` routes the query through the
key=value branch.) -/
theorem claimC4_roundtrip_unpadded (d : List Char)
    (hd : "http".toList.isPrefixOf d) :
    tryDecodeGet2In ("https://get2.in/?".toList ++
      dropPadRight (b64urlEncode (utf8Encode d))) = some d := by
  have hdne : d ≠ [] := by
    rintro rfl
    simp [List.isPrefixOf] at hd
  have hb := utf8Encode_lt256 d
  have hstrip := dropPadRight_b64urlEncode (utf8Encode d) hb
  rw [hstrip]
  have hmem := b64urlEncodeNoPad_mem (utf8Encode d) hb
  have hno : ∀ c ∈ b64urlEncodeNoPad (utf8Encode d), c ≠ '#' := by
    intro c hc
    obtain ⟨v, hv, rfl⟩ := hmem c hc
    exact (sixToChar_notSpecial v hv).2.2.2.1
  have hnoEq : ∀ c ∈ b64urlEncodeNoPad (utf8Encode d), c ≠ '=' := by
    intro c hc
    obtain ⟨v, hv, rfl⟩ := hmem c hc
    exact (sixToChar_notSpecial v hv).2.2.2.2.1
  have hnoPct : ∀ c ∈ b64urlEncodeNoPad (utf8Encode d), c ≠ '%' := by
    intro c hc
    obtain ⟨v, hv, rfl⟩ := hmem c hc
    exact (sixToChar_notSpecial v hv).2.2.2.2.2.2
  have hne : b64urlEncodeNoPad (utf8Encode d) ≠ [] :=
    b64urlEncodeNoPad_ne_nil _ (utf8Encode_ne_nil d hdne)
  unfold tryDecodeGet2In
  rw [pyUrlparse_relay _ hno]
  dsimp only
  rw [if_neg (by decide)]
  rw [if_pos hne, if_neg hne]
  have hsel : selectCandidate (b64urlEncodeNoPad (utf8Encode d)) =
      b64urlEncodeNoPad (utf8Encode d) := by
    unfold selectCandidate
    rw [strIn_single_false '=' _ hnoEq]
    simp
  rw [hsel]
  unfold decodeCandidate
  rw [pyUnquote_no_percent _ hnoPct]
  dsimp only
  rw [tryB64Block_noPad (utf8Encode d) hb]
  have hrt : utf8DecodeIgnore (utf8Encode d) = d := utf8DecodeWith_encode [] d
  rw [hrt]
  dsimp only
  rw [if_pos hd]


/-- Witness for C4: the round trip at `d = "https://dest.example/x"`. -/
theorem claimC4_witness :
    ("http".toList.isPrefixOf "https://dest.example/x".toList) = true ∧
    tryDecodeGet2In ("https://get2.in/?".toList ++
      dropPadRight (b64urlEncode (utf8Encode "https://dest.example/x".toList))) =
      some "https://dest.example/x".toList :=
  ⟨by decide, claimC4_roundtrip_unpadded "https://dest.example/x".toList (by decide)⟩

/-- Counterexample for C4 as stated: with the `'='` padding kept (the
claim says "with or without padding"), the very payload from the spec's
round-trip example decodes to `None`, not to the destination. -/
theorem claimC4_counterexample :
    b64urlEncode (utf8Encode "https://dest.example/x".toList) =
      "aHR0cHM6Ly9kZXN0LmV4YW1wbGUveA==".toList ∧
    tryDecodeGet2In
      "https://get2.in/?aHR0cHM6Ly9kZXN0LmV4YW1wbGUveA==".toList = none := by
  constructor
  · decide
  · decide

theorem decodeCandidate_some_http (candidate r : List Char)
    (h : decodeCandidate candidate = some r) : "http".toList.isPrefixOf r := by
  unfold decodeCandidate at h
  dsimp only at h
  split at h
  · split at h
    · injection h with h2
      subst h2
      assumption
    · split at h
      · injection h with h2
        subst h2
        assumption
      · simp at h
  · split at h
    · injection h with h2
      subst h2
      assumption
    · simp at h

/-- Claim C5 (confirmed): the decoder is total by construction (every
fallible step is modelled as `Option` and caught, as in the source's
`try`/`except`), and whenever it returns a value that value starts with
`"http"` — i.e. it returns either a URL-looking string or `None`. -/
theorem claimC5_decoder_total_http (s r : List Char)
    (h : tryDecodeGet2In s = some r) : "http".toList.isPrefixOf r := by
  unfold tryDecodeGet2In at h
  dsimp only at h
  split at h
  · simp at h
  · split at h
    · exact decodeCandidate_some_http _ _ h
    · split at h
      · simp at h
      · exact decodeCandidate_some_http _ _ h

/-- Witness for C5 at a concrete relay URL. -/
theorem claimC5_witness :
    tryDecodeGet2In
      "https://get2.in/?aHR0cDovL2EuZXhhbXBsZS8".toList =
      some "http://a.example/".toList ∧
    "http".toList.isPrefixOf "http://a.example/".toList = true :=
  ⟨by decide,
    claimC5_decoder_total_http
      "https://get2.in/?aHR0cDovL2EuZXhhbXBsZS8".toList
      "http://a.example/".toList (by decide)⟩

/-- Modelled from the spec for comparison (claim C6): "prefer the
longest value" — the value of maximal length among the query's
key=value pairs. -/
def longestValueSpec (query : List Char) : List Char :=
  ((splitOnChar '&' query).filterMap
      (fun p => (splitFirst '=' p).map Prod.snd)).foldl
    (fun best v => if best.length < v.length then v else best) []

theorem findCandidateLoop_eq_find (parts : List (List Char)) :
    findCandidateLoop parts =
      (parts.filterMap (fun p => (splitFirst '=' p).map Prod.snd)).find?
        (fun v => 8 < v.length) := by
  induction parts with
  | nil => rfl
  | cons p ps ih =>
    simp only [findCandidateLoop, List.filterMap_cons]
    cases hs : splitFirst '=' p with
    | none => simpa using ih
    | some kv =>
      simp only [Option.map_some', List.find?]
      by_cases hlen : 8 < kv.2.length
      · simp [hlen]
      · simp only [if_neg hlen]
        rw [ih]
        have : decide (8 < kv.2.length) = false := by
          simpa using hlen
        simp [this]

/-- Claim C6 (corrected): when the query has key=value pairs, the
decode candidate is the **first** value whose length exceeds 8 (not the
longest value); when no value is that long, the fallback is the last
part's value.  `claimC6_counterexample` exhibits a query where this
differs from the spec's "longest value" rule. -/
theorem claimC6_first_long_value (query : List Char)
    (h : strIn ['='] query = true) :
    selectCandidate query =
      ((((splitOnChar '&' query).filterMap
          (fun p => (splitFirst '=' p).map Prod.snd)).find?
        (fun v => 8 < v.length)).getD
        (lastPartFallback (splitOnChar '&' query))) := by
  unfold selectCandidate
  dsimp only
  rw [if_pos h, findCandidateLoop_eq_find]
  cases ((splitOnChar '&' query).filterMap
      (fun p => (splitFirst '=' p).map Prod.snd)).find? (fun v => 8 < v.length) <;>
    rfl

/-- Witness for C6 at the counterexample query: the first over-8 value
is selected. -/
theorem claimC6_witness :
    strIn ['='] "a=123456789&b=1234567890123".toList = true ∧
    selectCandidate "a=123456789&b=1234567890123".toList =
      "123456789".toList := by
  refine ⟨by decide, ?_⟩
  rw [claimC6_first_long_value _ (by decide)]
  decide

/-- Counterexample for C6 as stated: the decoder prefers the first
value longer than 8 characters, not the longest one — both at the
candidate-selection level and end to end, where the shorter first value
is the one decoded. -/
theorem claimC6_counterexample :
    selectCandidate "a=123456789&b=1234567890123".toList =
      "123456789".toList ∧
    longestValueSpec "a=123456789&b=1234567890123".toList =
      "1234567890123".toList ∧
    "123456789".toList ≠ "1234567890123".toList ∧
    tryDecodeGet2In
      "https://get2.in/?x=aHR0cDovL2EuZXhhbXBsZS8&y=aHR0cDovL2JiYmJiYmJiLmV4YW1wbGUvenp6".toList =
      some "http://a.example/".toList ∧
    decodeCandidate "aHR0cDovL2JiYmJiYmJiLmV4YW1wbGUvenp6".toList =
      some "http://bbbbbbbb.example/zzz".toList := by
  refine ⟨by decide, by decide, by decide, by decide, by decide⟩

/-! ## Classifiers and challenge detection -/

/-- Models bot.py line 47 `looks_final` (module level): false for empty
strings and for URLs containing a gplinks marker, case-insensitively. -/
def looksFinalBot (u : List Char) : Bool :=
  if u = [] then false
  else
    !(strIn "gplinks.co".toList (pyLower u)) &&
      !(strIn "gplinks".toList (pyLower u))

/-- Models web_bypass.py line 64 `looks_final`: also excludes the
`get2.in` relay. -/
def looksFinalWeb (u : List Char) : Bool :=
  if u = [] then false
  else
    !(strIn "gplinks.co".toList (pyLower u)) &&
      !(strIn "get2.in".toList (pyLower u)) &&
      !(strIn "gplinks".toList (pyLower u))

/-- Models the local `looks_final` of bot.py lines 490/662 (inside
`attempt_bypass_once` / `bypass_gplinks`): no empty-string guard. -/
def looksFinalGp (u : List Char) : Bool :=
  !(strIn "gplinks.co".toList (pyLower u)) &&
    !(strIn "gplinks".toList (pyLower u))

/-- The challenge keyword set of the source (bot.py line 183, bot.py
line 515, web_bypass.py line 282 — all the same five strings). -/
def captchaKeywords : List (List Char) :=
  ["captcha".toList, "recaptcha".toList, "hcaptcha".toList,
    "i am not a robot".toList, "please verify".toList]

/-- Models the challenge detection of `bypass_url_once` /
`attempt_bypass_once` / `bypass_once`: any keyword contained in the
lower-cased page content. -/
def detectCaptcha (content : List Char) : Bool :=
  captchaKeywords.any (fun k => strIn k (pyLower content))

/-- Modelled from the spec for comparison (claim C7): the keyword set
the spec describes, with `verify` in place of the code's
`please verify`. -/
def specCaptchaKeywords : List (List Char) :=
  ["captcha".toList, "recaptcha".toList, "hcaptcha".toList,
    "verify".toList, "i am not a robot".toList]

/-! ## Heuristic interaction engine (`try_click_getlink_elements`,
web_bypass.py lines 82-162) -/

/-- One interactive element as observed through the Page Driver.  All
fields are the results of browser I/O made during the scan: the raw
`inner_text()` and `aria-label` reads, the static `href` and its
`urljoin` resolution (`resolve_href`), the page URL observed after the
click-and-wait, and the result of the `re.search` for the heroku
`generate?code=` pattern over the page content fetched after the click
(one field for the navigated page, one for the un-navigated page). -/
structure GElem where
  rawText : List Char
  rawAria : List Char
  href : Option (List Char)
  resolvedHref : List Char
  urlAfterClick : List Char
  herokuAfterNav : Option (List Char)
  herokuNoNav : Option (List Char)
  deriving Repr, DecidableEq

/-- web_bypass.py lines 102-114: `text`/`aria` are stripped and
lowered, then `combined = f"{text} {aria}".strip()`. -/
def gCombined (e : GElem) : List Char :=
  pyStrip (pyLower (pyStrip e.rawText) ++ ' ' :: pyLower (pyStrip e.rawAria))

/-- The action vocabulary (web_bypass.py lines 87-88). -/
def actionPatterns : List (List Char) :=
  ["get link".toList, "get-link".toList, "getlink".toList, "get now".toList,
    "show link".toList, "click here".toList, "continue".toList,
    "open link".toList, "get url".toList, "get code".toList,
    "generate".toList, "download".toList]

/-- web_bypass.py line 115: `any(p in combined for p in patterns)`. -/
def gMatches (e : GElem) : Bool :=
  actionPatterns.any (fun p => strIn p (gCombined e))

/-- What one matched-and-activated element yields (web_bypass.py lines
119-159): if the click navigated, the heroku pattern from the new page
or else the new URL; otherwise a static `href` passing `looks_final` or
the heroku host/path patterns; otherwise a heroku pattern found in the
un-navigated page; `none` lets the scan continue. -/
def elemClickOutcome (baseUrl : List Char) (e : GElem) : Option (List Char) :=
  if e.urlAfterClick ≠ [] ∧ e.urlAfterClick ≠ baseUrl then
    some (e.herokuAfterNav.getD e.urlAfterClick)
  else
    match e.href with
    | some _ =>
      if looksFinalWeb e.resolvedHref = true ∨
          strIn "herokuapp.com".toList e.resolvedHref = true ∨
          strIn "/generate?code=".toList e.resolvedHref = true then
        some e.resolvedHref
      else e.herokuNoNav
    | none => e.herokuNoNav

/-- Models `try_click_getlink_elements` (web_bypass.py lines 82-162):
scan the elements in order; click every element whose combined signal
matches the vocabulary; return the first usable outcome; `None` when
the scan finds nothing usable. -/
def tryClickGetlink (baseUrl : List Char) : List GElem → Option (List Char)
  | [] => none
  | e :: rest =>
    if gMatches e then
      match elemClickOutcome baseUrl e with
      | some u => some u
      | none => tryClickGetlink baseUrl rest
    else tryClickGetlink baseUrl rest

/-! ## The `bypass_once` round loop (web_bypass.py lines 186-429) -/

/-- Safety cap for navigations (web_bypass.py line 37). -/
def maxNavHistory : Nat := 30

/-- Seconds per attempt (web_bypass.py line 35). -/
def webMaxTotalWait : Nat := 90

/-- Python string `<` (lexicographic on code points). -/
def lexLt : List Char → List Char → Bool
  | [], [] => false
  | [], _ :: _ => true
  | _ :: _, [] => false
  | x :: xs, y :: ys =>
    if x.toNat < y.toNat then true
    else if y.toNat < x.toNat then false
    else lexLt xs ys

/-- `sorted(s)[0]` of a non-empty collection — its lexicographic
minimum (`[]` for an empty one, unreachable in the loop). -/
def minLex : List (List Char) → List Char
  | [] => []
  | [x] => x
  | x :: xs =>
    let m := minLex xs
    if lexLt m x then m else x

/-- `push_history` (web_bypass.py lines 220-224): append unless empty
or equal to the current last entry. -/
def pushHistory (hist : List (List Char)) (u : List Char) : List (List Char) :=
  if u = [] then hist
  else if hist.getLast? = some u then hist
  else hist ++ [u]

/-- Observations the round loop makes of the browser during one
iteration of the `while` loop (web_bypass.py lines 227-419), in source
order: the clock reading at the loop guard (seconds since the attempt
started), `page.url` at the top, the network-listener set snapshot, the
elements scanned by `try_click_getlink_elements` and `page.url` after
that call, `page.url` at the first history check (line 257), the
`re.search` heroku result over the fetched content (line 264), the
content used for challenge detection (line 279), the URL the extended
grace window (lines 295-390, which always returns) would produce, and
`page.url` at the second history check (line 415). -/
structure RoundObs where
  time : Nat
  urlTop : List Char
  network : List (List Char)
  elems : List GElem
  urlAfterClick : List Char
  urlMid1 : List Char
  herokuContent : Option (List Char)
  content : List Char
  graceResult : List Char
  urlMid2 : List Char
  deriving Repr, DecidableEq

/-- Result of one attempt, instrumented with the number of loop rounds
executed. -/
inductive OnceOutcome where
  | success (finalUrl : List Char) (navHistory : List (List Char)) (rounds : Nat)
  | blocked (navHistory : List (List Char)) (rounds : Nat)
  | timeout (lastUrl : List Char) (navHistory : List (List Char)) (rounds : Nat)
  deriving Repr, DecidableEq

/-- The round loop of `bypass_once` (web_bypass.py lines 227-429) over
a trace of per-round observations: guard `time < MAX_TOTAL_WAIT and
len(nav_history) < MAX_NAV_HISTORY`, then network-first candidate,
get-link clicks, history update, heroku content scan, challenge
detection, the grace window for final-looking locations, and the
second history update before the next round.  Trace exhaustion models
the observation horizon and exits like the guard's timeout path. -/
def roundLoop (url : List Char) :
    List RoundObs → List (List Char) → List Char → Nat → OnceOutcome
  | [], hist, lastUrl, n => .timeout lastUrl hist n
  | r :: rest, hist, lastUrl, n =>
    if r.time < webMaxTotalWait ∧ hist.length < maxNavHistory then
      if r.network ≠ [] then .success (minLex r.network) hist (n + 1)
      else
        match tryClickGetlink r.urlTop r.elems with
        | some cr => .success cr (pushHistory hist r.urlAfterClick) (n + 1)
        | none =>
          let hl2 :=
            if r.urlMid1 ≠ lastUrl then (pushHistory hist r.urlMid1, r.urlMid1)
            else (hist, lastUrl)
          match r.herokuContent with
          | some hm => .success hm hl2.1 (n + 1)
          | none =>
            if detectCaptcha r.content then .blocked hl2.1 (n + 1)
            else if looksFinalWeb r.urlTop = true ∧ r.urlTop ≠ url then
              .success r.graceResult hl2.1 (n + 1)
            else
              let hl3 :=
                if r.urlMid2 ≠ hl2.2 then (pushHistory hl2.1 r.urlMid2, r.urlMid2)
                else hl2
              roundLoop url rest hl3.1 hl3.2 (n + 1)
    else .timeout r.urlTop hist n

/-- Models `bypass_once` from the first loop entry on: the initial
navigation recorded `page.url` (line 214) as the first history entry
and `last_url` (line 217). -/
def bypassOnceModel (url initUrl : List Char) (trace : List RoundObs) :
    OnceOutcome :=
  roundLoop url trace [initUrl] initUrl 0

/-- A round that produces no evidence at all: no network candidate, no
usable click, no heroku match, no challenge, and a location that does
not yet look final. -/
def Inconclusive (url : List Char) (r : RoundObs) : Prop :=
  r.network = [] ∧ tryClickGetlink r.urlTop r.elems = none ∧
    r.herokuContent = none ∧ detectCaptcha r.content = false ∧
    ¬(looksFinalWeb r.urlTop = true ∧ r.urlTop ≠ url)

instance (url : List Char) (r : RoundObs) : Decidable (Inconclusive url r) := by
  unfold Inconclusive
  infer_instance

/-- The number of rounds the guard alone permits on an inconclusive
trace: count until `time ≥ MAX_TOTAL_WAIT` or the history cap is hit,
with the history evolving exactly as in the loop body. -/
def guardRounds : List RoundObs → List (List Char) → List Char → Nat
  | [], _, _ => 0
  | r :: rest, hist, lastUrl =>
    if r.time < webMaxTotalWait ∧ hist.length < maxNavHistory then
      let hl2 :=
        if r.urlMid1 ≠ lastUrl then (pushHistory hist r.urlMid1, r.urlMid1)
        else (hist, lastUrl)
      let hl3 :=
        if r.urlMid2 ≠ hl2.2 then (pushHistory hl2.1 r.urlMid2, r.urlMid2)
        else hl2
      1 + guardRounds rest hl3.1 hl3.2
    else 0

/-- Rounds-executed projection of an attempt outcome. -/
def onceRounds : OnceOutcome → Nat
  | .success _ _ n => n
  | .blocked _ n => n
  | .timeout _ _ n => n

/-- History-length projection of an attempt outcome. -/
def onceHistLen : OnceOutcome → Nat
  | .success _ h _ => h.length
  | .blocked h _ => h.length
  | .timeout _ h _ => h.length

/-- Whether the attempt ended inconclusively (guard exit). -/
def onceIsTimeout : OnceOutcome → Bool
  | .timeout _ _ _ => true
  | _ => false

/-! ## Claims C7, C8, C9 -/

/-- Counterexample for C7 as stated: the claimed keyword set contains
`verify`, which matches a page that merely says "Verify your email
address"; the code's set uses `please verify` instead, and such a page
is NOT flagged as a challenge. -/
theorem claimC7_counterexample :
    strIn "verify".toList (pyLower "Verify your email address".toList) = true ∧
    specCaptchaKeywords.any
      (fun k => strIn k (pyLower "Verify your email address".toList)) = true ∧
    detectCaptcha "Verify your email address".toList = false := by
  refine ⟨by decide, by decide, by decide⟩

/-- The content and the one-round observation used for the C7 block
path: a page whose content is the spec's example
`"Please verify you are human"`, with no earlier-priority evidence. -/
def c7Round : RoundObs :=
  { time := 0, urlTop := "https://gplinks.co/x".toList, network := [],
    elems := [], urlAfterClick := [], urlMid1 := "https://gplinks.co/x".toList,
    herokuContent := none,
    content := "Please verify you are human".toList, graceResult := [],
    urlMid2 := "https://gplinks.co/x".toList }

/-- Claim C7 (corrected): the challenge keyword set of the code is
{captcha, recaptcha, hcaptcha, "i am not a robot", "please verify"} —
`please verify`, not the claimed bare `verify` — any of which,
case-insensitively contained in the page content, makes the detector
fire; and the spec's example page "Please verify you are human" makes
the attempt's round loop return Blocked with `captcha_detected` in its
very round. -/
theorem claimC7_keywords_and_block :
    (∀ content : List Char, detectCaptcha content = true ↔
      ∃ k ∈ captchaKeywords, strIn k (pyLower content) = true) ∧
    bypassOnceModel "https://gplinks.co/x".toList "https://gplinks.co/x".toList
      [c7Round] = .blocked ["https://gplinks.co/x".toList] 1 := by
  constructor
  · intro content
    simp [detectCaptcha, List.any_eq_true]
  · decide

/-- Witness for C7: the detector fires on the spec's example content,
via the keyword characterization. -/
theorem claimC7_witness :
    detectCaptcha "Please verify you are human".toList = true :=
  (claimC7_keywords_and_block.1 "Please verify you are human".toList).mpr
    ⟨"please verify".toList, by decide, by decide⟩

/-- A matching element whose activation produces no usable signal: the
click does not navigate (`urlAfterClick = baseUrl`), there is no href
and no heroku match. -/
def c8Elem1 : GElem :=
  { rawText := "Continue".toList, rawAria := [], href := none,
    resolvedHref := [], urlAfterClick := "https://gplinks.co/p".toList,
    herokuAfterNav := none, herokuNoNav := none }

/-- A later matching element whose activation navigates to a final
URL. -/
def c8Elem2 : GElem :=
  { rawText := "Get Link".toList, rawAria := [], href := none,
    resolvedHref := [], urlAfterClick := "https://dest.example/f".toList,
    herokuAfterNav := none, herokuNoNav := none }

/-- Counterexample for C8 as stated: scanning does NOT stop at the
first matching, successfully-activated element — `c8Elem1` matches and
is activated but yields nothing, and the round goes on to activate
`c8Elem2` and use its result. -/
theorem claimC8_counterexample :
    gMatches c8Elem1 = true ∧
    elemClickOutcome "https://gplinks.co/p".toList c8Elem1 = none ∧
    gMatches c8Elem2 = true ∧
    tryClickGetlink "https://gplinks.co/p".toList [c8Elem1, c8Elem2] =
      some "https://dest.example/f".toList := by
  refine ⟨by decide, by decide, by decide, by decide⟩

/-- Claim C8 (corrected): per round, the engine uses the first element
that matches the action vocabulary AND whose activation produces a
usable outcome (navigation, final-looking href, or pattern match);
matching elements whose activation yields no usable signal do not stop
the scan; `None` is returned exactly when every element either does not
match or yields no usable outcome. -/
theorem claimC8_first_usable (baseUrl : List Char) (els : List GElem) :
    tryClickGetlink baseUrl els =
      els.findSome?
        (fun e => if gMatches e then elemClickOutcome baseUrl e else none) ∧
    (tryClickGetlink baseUrl els = none ↔
      ∀ e ∈ els, gMatches e = false ∨ elemClickOutcome baseUrl e = none) := by
  have h1 : tryClickGetlink baseUrl els =
      els.findSome?
        (fun e => if gMatches e then elemClickOutcome baseUrl e else none) := by
    induction els with
    | nil => rfl
    | cons e rest ih =>
      rw [tryClickGetlink, List.findSome?_cons]
      by_cases hm : gMatches e
      · rw [if_pos hm, if_pos hm]
        cases ho : elemClickOutcome baseUrl e with
        | none => simpa using ih
        | some u => rfl
      · rw [if_neg hm, if_neg hm]
        simpa using ih
  refine ⟨h1, ?_⟩
  rw [h1, List.findSome?_eq_none_iff]
  constructor
  · intro hall e he
    have := hall e he
    by_cases hm : gMatches e
    · right
      rwa [if_pos hm] at this
    · left
      simpa using hm
  · intro hall e he
    rcases hall e he with hm | ho
    · rw [if_neg (by simp [hm])]
    · by_cases hm : gMatches e
      · rwa [if_pos hm]
      · rw [if_neg hm]

/-- Witness for C8 at the counterexample elements. -/
theorem claimC8_witness :
    tryClickGetlink "https://gplinks.co/p".toList [c8Elem1, c8Elem2] =
      [c8Elem1, c8Elem2].findSome?
        (fun e => if gMatches e then
          elemClickOutcome "https://gplinks.co/p".toList e else none) :=
  (claimC8_first_usable "https://gplinks.co/p".toList [c8Elem1, c8Elem2]).1

/-- Claim C9 (confirmed): on a page that never produces evidence
(every round inconclusive), the round loop runs exactly as many rounds
as the guard permits — it exits, as an inconclusive timeout, at the
first round where the wall-clock budget or the history safety cap
(whichever comes first) is exceeded, and not later. -/
theorem claimC9_guard_termination (url : List Char) (trace : List RoundObs)
    (hist : List (List Char)) (lastUrl : List Char) (n : Nat)
    (h : ∀ r ∈ trace, Inconclusive url r) :
    ∃ u hist2, roundLoop url trace hist lastUrl n =
      .timeout u hist2 (n + guardRounds trace hist lastUrl) := by
  induction trace generalizing hist lastUrl n with
  | nil => exact ⟨lastUrl, hist, by simp [roundLoop, guardRounds]⟩
  | cons r rest ih =>
    obtain ⟨hnet, hclick, hher, hcap, hfin⟩ := h r (by simp)
    by_cases hg : r.time < webMaxTotalWait ∧ hist.length < maxNavHistory
    · rw [roundLoop, if_pos hg, if_neg (by simp [hnet]), hclick]
      dsimp only
      rw [hher]
      dsimp only
      rw [if_neg (by simp [hcap]), if_neg hfin]
      rw [guardRounds, if_pos hg]
      dsimp only
      obtain ⟨u, h2, heq⟩ :=
        ih
          (if r.urlMid2 ≠ (if r.urlMid1 ≠ lastUrl then (pushHistory hist r.urlMid1, r.urlMid1) else (hist, lastUrl)).2 then
            (pushHistory (if r.urlMid1 ≠ lastUrl then (pushHistory hist r.urlMid1, r.urlMid1) else (hist, lastUrl)).1 r.urlMid2, r.urlMid2)
          else (if r.urlMid1 ≠ lastUrl then (pushHistory hist r.urlMid1, r.urlMid1) else (hist, lastUrl))).1
          (if r.urlMid2 ≠ (if r.urlMid1 ≠ lastUrl then (pushHistory hist r.urlMid1, r.urlMid1) else (hist, lastUrl)).2 then
            (pushHistory (if r.urlMid1 ≠ lastUrl then (pushHistory hist r.urlMid1, r.urlMid1) else (hist, lastUrl)).1 r.urlMid2, r.urlMid2)
          else (if r.urlMid1 ≠ lastUrl then (pushHistory hist r.urlMid1, r.urlMid1) else (hist, lastUrl))).2
          (n + 1)
          (fun x hx => h x (List.mem_cons_of_mem _ hx))
      refine ⟨u, h2, ?_⟩
      rw [heq]
      congr 1
      omega
    · rw [roundLoop, if_neg hg, guardRounds, if_neg hg]
      exact ⟨r.urlTop, hist, by congr 1⟩

/-- First oscillation URL (also the attempt's start URL). -/
def oscU1 : List Char := "https://gplinks.co/a".toList

/-- Second oscillation URL. -/
def oscU2 : List Char := "https://gplinks.co/b".toList

/-- A Page Driver trace oscillating forever between two non-final
URLs: each round moves to the other URL, producing one new history
entry per round, with the clock well inside the per-attempt budget. -/
def oscTrace : List RoundObs :=
  (List.range 31).map (fun k =>
    { time := k, urlTop := if k % 2 = 0 then oscU1 else oscU2, network := [],
      elems := [], urlAfterClick := [],
      urlMid1 := if k % 2 = 0 then oscU2 else oscU1,
      herokuContent := none, content := "advert page".toList,
      graceResult := [],
      urlMid2 := if k % 2 = 0 then oscU2 else oscU1 })

/-- Witness for C9: the oscillating stub is stopped by the history cap
after exactly `maxNavHistory - 1` rounds with the history at exactly
`maxNavHistory` entries, while the clock is still far below the
budget. -/
theorem claimC9_witness :
    (∀ r ∈ oscTrace, Inconclusive oscU1 r) ∧
    onceIsTimeout (bypassOnceModel oscU1 oscU1 oscTrace) = true ∧
    onceRounds (bypassOnceModel oscU1 oscU1 oscTrace) = maxNavHistory - 1 ∧
    onceHistLen (bypassOnceModel oscU1 oscU1 oscTrace) = maxNavHistory ∧
    (∀ r ∈ oscTrace, r.time < webMaxTotalWait) := by
  have hinc : ∀ r ∈ oscTrace, Inconclusive oscU1 r := by decide
  obtain ⟨u, h2, heq⟩ :=
    claimC9_guard_termination oscU1 oscTrace [oscU1] oscU1 0 hinc
  refine ⟨hinc, ?_, ?_, by decide, by decide⟩
  · unfold bypassOnceModel
    rw [heq]
    rfl
  · unfold bypassOnceModel
    rw [heq]
    show 0 + guardRounds oscTrace [oscU1] oscU1 = maxNavHistory - 1
    decide

/-! ## Attempt orchestrators -/

/-- The observable part of one attempt's result dict as consumed by the
orchestrators (`final_url`, `raw_last_url`/`raw_last_page_url`,
`captcha_detected`); the per-attempt browser work that produces it is
the Page Driver collaborator.  A result with `finalUrl` equal to the
start URL and no captcha is reachable, e.g. from `bypass_url_once`'s
timeout path (bot.py line 280), which returns `page.url`. -/
structure AttemptRes where
  finalUrl : List Char
  rawLastUrl : List Char
  captchaDetected : Bool
  deriving Repr, DecidableEq

/-- Outcome of an endpoint attempt loop: `stopped` when the loop broke
(captcha or accepted final URL), `exhausted` when all attempts ran. -/
inductive EpOutcome where
  | stopped (r : AttemptRes) (made : Nat)
  | exhausted (r : AttemptRes) (made : Nat)
  deriving Repr, DecidableEq

/-- The attempt loop of bot.py's `/bypass` endpoint (lines 312-337):
`final_result.update(res)` each round, break when
`res.captcha_detected or looks_final(res.final_url)` — note: no
comparison with the start URL. -/
def botEndpointLoop (url : List Char) :
    List AttemptRes → AttemptRes → Nat → EpOutcome
  | [], acc, made => .exhausted acc made
  | r :: rest, _, made =>
    if r.captchaDetected = true ∨ looksFinalBot r.finalUrl = true then
      .stopped r (made + 1)
    else botEndpointLoop url rest r (made + 1)

/-- The serialized response of bot.py's `/bypass` endpoint (lines
354-359): empty strings fall back to the request URL. -/
structure EpResponse where
  finalUrl : List Char
  rawLastUrl : List Char
  captchaDetected : Bool
  attemptsMade : Nat
  deriving Repr, DecidableEq

/-- bot.py's `/bypass` endpoint given the per-attempt results the
browser produced: run the loop from the initial placeholder result and
assemble the response. -/
def botEndpointRun (url : List Char) (attempts : Nat)
    (results : List AttemptRes) : EpResponse :=
  match botEndpointLoop url (results.take attempts) ⟨url, url, false⟩ 0 with
  | .stopped r made | .exhausted r made =>
    ⟨if r.finalUrl = [] then url else r.finalUrl,
      if r.rawLastUrl = [] then url else r.rawLastUrl,
      r.captchaDetected, made⟩

/-- The attempt loop of web_bypass.py's playwright `/bypass` endpoint
(lines 464-484): break on captcha, else break when
`looks_final(final.final_url) and "gplinks" not in final.final_url` —
again no comparison with the start URL. -/
def webEndpointLoop (url : List Char) :
    List AttemptRes → AttemptRes → Nat → EpOutcome
  | [], acc, made => .exhausted acc made
  | r :: rest, _, made =>
    if r.captchaDetected = true then .stopped r (made + 1)
    else if looksFinalWeb r.finalUrl = true ∧
        strIn "gplinks".toList (pyLower r.finalUrl) = false then
      .stopped r (made + 1)
    else webEndpointLoop url rest r (made + 1)

/-- Outcome of `bypass_gplinks` (bot.py lines 630-685), tagged by which
return fired: the captcha return (line 660), the success return (line
668), or the best-observed return after exhaustion (line 685). -/
inductive GpOutcome where
  | blocked (r : AttemptRes) (made : Nat)
  | success (r : AttemptRes) (made : Nat)
  | exhausted (r : AttemptRes) (made : Nat)
  deriving Repr, DecidableEq

/-- The attempt loop of `bypass_gplinks` (bot.py lines 642-685):
return on captcha; return on `looks_final(final) and final != url`;
otherwise remember the result and retry; after the last attempt return
the last observed result. -/
def bypassGplinksLoop (url : List Char) :
    List AttemptRes → AttemptRes → Nat → GpOutcome
  | [], last, made => .exhausted last made
  | r :: rest, _, made =>
    if r.captchaDetected = true then .blocked r (made + 1)
    else if looksFinalGp r.finalUrl = true ∧ r.finalUrl ≠ url then
      .success r (made + 1)
    else bypassGplinksLoop url rest r (made + 1)

/-- `bypass_gplinks` given the per-attempt results, starting from the
initial `last_result` placeholder (bot.py line 643). -/
def bypassGplinksRun (url : List Char) (attempts : Nat)
    (results : List AttemptRes) : GpOutcome :=
  bypassGplinksLoop url (results.take attempts) ⟨url, url, false⟩ 0

/-- Intermediate-host markers of the cloudscraper variant
(web_bypass.py line 490). -/
def intermediateHosts : List (List Char) :=
  ["procinehub.com".toList, "ad.".toList, "ads.".toList, "short".toList,
    "interstitial".toList]

/-- Models `looks_intermediate` (web_bypass.py lines 492-496). -/
def looksIntermediate (u : List Char) : Bool :=
  if u = [] then false
  else intermediateHosts.any (fun hst => strIn hst (pyLower u))

/-- Outcome of the cloudscraper `/bypass` endpoint: a JSON 200
response, or the `HTTPException(502)` raised after exhausting all
attempts. -/
inductive CloudOutcome where
  | ok (finalUrl raw : List Char) (attemptsMade : Nat) (note : List Char)
  | httpError (code : Nat) (lastErr : List Char)
  deriving Repr, DecidableEq

/-- The attempt loop of the cloudscraper `bypass` endpoint
(web_bypass.py lines 643-666) over the outcomes of
`gplinks_bypass_sync` (a raised error message, or a
final/raw/note triple): failed attempts and intermediate-looking
results (with attempts remaining) update `last_err` and retry; an
acceptable result returns a 200 response; when the loop ends without
returning, `HTTPException(status_code=502, ...)` is raised. -/
def cloudBypassGo (attempts : Nat) :
    Nat → List (Except (List Char) (List Char × List Char × List Char)) →
      List Char → CloudOutcome
  | _, [], lastErr => .httpError 502 lastErr
  | i, o :: rest, _lastErr =>
    match o with
    | .error e => cloudBypassGo attempts (i + 1) rest e
    | .ok (finalUrl, raw, note) =>
      if finalUrl ≠ [] then
        if looksIntermediate finalUrl = true ∧ i < attempts then
          cloudBypassGo attempts (i + 1) rest
            ("intermediate:".toList ++ finalUrl)
        else .ok finalUrl raw i note
      else cloudBypassGo attempts (i + 1) rest "no final url extracted".toList

/-- The cloudscraper `/bypass` endpoint given the per-attempt sync
outcomes. -/
def cloudBypassRun (attempts : Nat)
    (outcomes : List (Except (List Char) (List Char × List Char × List Char))) :
    CloudOutcome :=
  cloudBypassGo attempts 1 (outcomes.take attempts) []

/-- Python `int(x or d)` on an optional attempts field: `None` and `0`
fall back to the default. -/
def pyOrInt (a : Option Int) (dflt : Int) : Int :=
  match a with
  | none => dflt
  | some v => if v = 0 then dflt else v

/-- bot.py line 296: `max(1, min(10, int(req.attempts or ATTEMPT_COUNT)))`
with `ATTEMPT_COUNT = 3`. -/
def effAttemptsBot (a : Option Int) : Int := max 1 (min 10 (pyOrInt a 3))

/-- web_bypass.py line 449: same clamp with `DEFAULT_ATTEMPTS = 3`. -/
def effAttemptsWeb (a : Option Int) : Int := max 1 (min 10 (pyOrInt a 3))

/-- web_bypass.py line 640 (cloudscraper variant):
`max(1, min(6, int(req.attempts or DEFAULT_ATTEMPTS)))` — the upper
bound is 6 there, not 10. -/
def effAttemptsCloud (a : Option Int) : Int := max 1 (min 6 (pyOrInt a 3))

/-- Attempts-made projection of an endpoint outcome. -/
def epMade : EpOutcome → Nat
  | .stopped _ m => m
  | .exhausted _ m => m

/-! ## Claims C1, C2, C3, C10 -/

/-- A marker-free start URL and an attempt result equal to it (as the
timeout path of `bypass_url_once` produces when no navigation
happened). -/
def c1url : List Char := "https://example.com/x".toList

/-- The attempt result carrying the start URL back. -/
def c1res : AttemptRes := ⟨c1url, c1url, false⟩

/-- Counterexample for C1 as stated: bot.py's `/bypass` endpoint breaks
on `looks_final(res.final_url)` alone (line 327) — no comparison with
the start URL — so with a marker-free start URL a first-attempt result
equal to the start URL is accepted as final: success on attempt 1 of 2,
no captcha, `final_url == startUrl`. -/
theorem claimC1_counterexample :
    botEndpointLoop c1url [c1res, c1res] ⟨c1url, c1url, false⟩ 0 =
      .stopped c1res 1 ∧
    botEndpointRun c1url 2 [c1res, c1res] = ⟨c1url, c1url, false, 1⟩ ∧
    c1res.finalUrl = c1url ∧ c1res.captchaDetected = false ∧ (1 : Nat) < 2 := by
  refine ⟨by decide, by decide, by decide, by decide, by decide⟩

/-- Claim C1 (corrected): `bypass_gplinks` (bot.py line 665) does
guarantee `finalUrl ≠ startUrl` on success — its acceptance condition
compares with the start URL; the HTTP endpoints do not
(`claimC1_counterexample`), so there the invariant only holds when the
start URL itself contains a gate marker. -/
theorem claimC1_gplinks_success_ne_start (url : List Char)
    (rs : List AttemptRes) (last : AttemptRes) (made : Nat)
    (r : AttemptRes) (m : Nat)
    (h : bypassGplinksLoop url rs last made = .success r m) :
    r.finalUrl ≠ url := by
  induction rs generalizing last made with
  | nil => simp [bypassGplinksLoop] at h
  | cons r0 rest ih =>
    rw [bypassGplinksLoop] at h
    split_ifs at h with h1 h2
    · injection h with h3 h4
      subst h3
      exact h2.2
    · exact ih _ _ h

/-- Witness for C1: a genuine success of `bypass_gplinks`, whose final
URL the theorem shows differs from the start URL. -/
theorem claimC1_witness :
    bypassGplinksLoop "https://gplinks.co/q".toList
      [⟨"https://d.example/f".toList, "https://d.example/f".toList, false⟩]
      ⟨"https://gplinks.co/q".toList, "https://gplinks.co/q".toList, false⟩ 0 =
      .success
        ⟨"https://d.example/f".toList, "https://d.example/f".toList, false⟩ 1 ∧
    "https://d.example/f".toList ≠ "https://gplinks.co/q".toList :=
  ⟨by decide,
    claimC1_gplinks_success_ne_start "https://gplinks.co/q".toList
      [⟨"https://d.example/f".toList, "https://d.example/f".toList, false⟩]
      ⟨"https://gplinks.co/q".toList, "https://gplinks.co/q".toList, false⟩ 0
      ⟨"https://d.example/f".toList, "https://d.example/f".toList, false⟩ 1
      (by decide)⟩

/-- Counterexample for C2 as stated: in the cloudscraper `/bypass`
endpoint (web_bypass.py line 666), exhausting all attempts — here two
attempts that connected but found no go-link form, i.e. resolution was
attempted, not a browser-acquisition failure — raises
`HTTPException(502)` instead of returning a best-observed result. -/
theorem claimC2_counterexample :
    cloudBypassRun 2
      [Except.error "Could not find go-link form on page; bypass not possible with this method".toList,
        Except.error "Could not find go-link form on page; bypass not possible with this method".toList] =
      .httpError 502
        "Could not find go-link form on page; bypass not possible with this method".toList := by
  decide

/-- Claim C2 (corrected): the browser-based orchestrators do return a
normal best-observed result on total exhaustion — `bypass_gplinks`
returns the last attempt's result, and bot.py's endpoint loop ends in
`exhausted` with the last result — but the cloudscraper `/bypass`
endpoint raises HTTP 502 on exhaustion (`claimC2_counterexample`). -/
theorem claimC2_exhaustion_best_observed :
    (∀ (url : List Char) (rs : List AttemptRes) (last : AttemptRes) (made : Nat),
      (∀ r ∈ rs, r.captchaDetected = false ∧
        ¬(looksFinalGp r.finalUrl = true ∧ r.finalUrl ≠ url)) →
      bypassGplinksLoop url rs last made =
        .exhausted ((last :: rs).getLast (by simp)) (made + rs.length)) ∧
    (∀ (url : List Char) (rs : List AttemptRes) (acc : AttemptRes) (made : Nat),
      (∀ r ∈ rs, ¬(r.captchaDetected = true ∨ looksFinalBot r.finalUrl = true)) →
      botEndpointLoop url rs acc made =
        .exhausted ((acc :: rs).getLast (by simp)) (made + rs.length)) := by
  constructor
  · intro url rs
    induction rs with
    | nil => intro last made _; simp [bypassGplinksLoop]
    | cons r rest ih =>
      intro last made h
      obtain ⟨hc, hf⟩ := h r (by simp)
      rw [bypassGplinksLoop, if_neg (by simp [hc]), if_neg hf]
      rw [ih r (made + 1) (fun x hx => h x (List.mem_cons_of_mem _ hx))]
      have hlast : (r :: rest).getLast (by simp) =
          (last :: r :: rest).getLast (by simp) :=
        (List.getLast_cons (by simp)).symm
      rw [hlast]
      congr 1
      simp
      omega
  · intro url rs
    induction rs with
    | nil => intro acc made _; simp [botEndpointLoop]
    | cons r rest ih =>
      intro acc made h
      have hr := h r (by simp)
      rw [botEndpointLoop, if_neg (by tauto)]
      rw [ih r (made + 1) (fun x hx => h x (List.mem_cons_of_mem _ hx))]
      have hlast : (r :: rest).getLast (by simp) =
          (acc :: r :: rest).getLast (by simp) :=
        (List.getLast_cons (by simp)).symm
      rw [hlast]
      congr 1
      simp
      omega

/-- Witness for C2: one inconclusive attempt — the loop returns it as
the best-observed result, a normal value, not an error. -/
theorem claimC2_witness :
    (∀ r ∈ [(⟨"https://gplinks.co/w".toList, "https://gplinks.co/w".toList, false⟩ : AttemptRes)],
      r.captchaDetected = false ∧
      ¬(looksFinalGp r.finalUrl = true ∧
        r.finalUrl ≠ "https://gplinks.co/w".toList)) ∧
    bypassGplinksLoop "https://gplinks.co/w".toList
      [⟨"https://gplinks.co/w".toList, "https://gplinks.co/w".toList, false⟩]
      ⟨"https://gplinks.co/w".toList, "https://gplinks.co/w".toList, false⟩ 0 =
      .exhausted
        ⟨"https://gplinks.co/w".toList, "https://gplinks.co/w".toList, false⟩ 1 := by
  constructor
  · decide
  · exact
      (claimC2_exhaustion_best_observed.1 "https://gplinks.co/w".toList
        [⟨"https://gplinks.co/w".toList, "https://gplinks.co/w".toList, false⟩]
        ⟨"https://gplinks.co/w".toList, "https://gplinks.co/w".toList, false⟩ 0
        (by decide)).trans (by decide)

/-- Claim C3 (confirmed): in both cited orchestrators, if attempt `i`
(0-based, reached because no earlier attempt stopped the loop) reports
a detected challenge, the loop returns immediately — attempts made is
exactly `i + 1`, so no attempt `i + 2` starts, no backoff and no reload
run — and the returned result is that captcha-flagged attempt
result. -/
theorem claimC3_captcha_terminal :
    (∀ (url : List Char) (rs : List AttemptRes) (i : Nat) (ri : AttemptRes),
      rs[i]? = some ri → ri.captchaDetected = true →
      (∀ j, j < i → ∀ rj, rs[j]? = some rj → rj.captchaDetected = false ∧
        ¬(looksFinalGp rj.finalUrl = true ∧ rj.finalUrl ≠ url)) →
      ∀ last made,
        bypassGplinksLoop url rs last made = .blocked ri (made + i + 1)) ∧
    (∀ (url : List Char) (rs : List AttemptRes) (i : Nat) (ri : AttemptRes),
      rs[i]? = some ri → ri.captchaDetected = true →
      (∀ j, j < i → ∀ rj, rs[j]? = some rj → rj.captchaDetected = false ∧
        ¬(looksFinalWeb rj.finalUrl = true ∧
          strIn "gplinks".toList (pyLower rj.finalUrl) = false)) →
      ∀ acc made,
        webEndpointLoop url rs acc made = .stopped ri (made + i + 1)) := by
  constructor
  · intro url rs
    induction rs with
    | nil => intro i ri hget; simp at hget
    | cons r rest ih =>
      intro i ri hget hcap hbefore last made
      cases i with
      | zero =>
        simp at hget
        subst hget
        rw [bypassGplinksLoop, if_pos hcap]
      | succ i' =>
        simp only [List.getElem?_cons_succ] at hget
        obtain ⟨h0c, h0f⟩ := hbefore 0 (by omega) r (by simp)
        rw [bypassGplinksLoop, if_neg (by simp [h0c]), if_neg h0f]
        rw [ih i' ri hget hcap
          (fun j hj rj hrj =>
            hbefore (j + 1) (by omega) rj (by simpa using hrj)) r (made + 1)]
        congr 1
        omega
  · intro url rs
    induction rs with
    | nil => intro i ri hget; simp at hget
    | cons r rest ih =>
      intro i ri hget hcap hbefore acc made
      cases i with
      | zero =>
        simp at hget
        subst hget
        rw [webEndpointLoop, if_pos hcap]
      | succ i' =>
        simp only [List.getElem?_cons_succ] at hget
        obtain ⟨h0c, h0f⟩ := hbefore 0 (by omega) r (by simp)
        rw [webEndpointLoop, if_neg (by simp [h0c]), if_neg h0f]
        rw [ih i' ri hget hcap
          (fun j hj rj hrj =>
            hbefore (j + 1) (by omega) rj (by simpa using hrj)) r (made + 1)]
        congr 1
        omega

/-- Witness for C3: a non-stopping first attempt followed by a captcha
attempt — both orchestrators stop at attempt 2 reporting the
challenge. -/
theorem claimC3_witness :
    bypassGplinksLoop "https://gplinks.co/z".toList
      [⟨"https://gplinks.co/z".toList, "https://gplinks.co/z".toList, false⟩,
        ⟨"https://gplinks.co/z".toList, "https://gplinks.co/z".toList, true⟩]
      ⟨"https://gplinks.co/z".toList, "https://gplinks.co/z".toList, false⟩ 0 =
      .blocked
        ⟨"https://gplinks.co/z".toList, "https://gplinks.co/z".toList, true⟩ 2 ∧
    webEndpointLoop "https://gplinks.co/z".toList
      [⟨"https://gplinks.co/z".toList, "https://gplinks.co/z".toList, false⟩,
        ⟨"https://gplinks.co/z".toList, "https://gplinks.co/z".toList, true⟩]
      ⟨"https://gplinks.co/z".toList, "https://gplinks.co/z".toList, false⟩ 0 =
      .stopped
        ⟨"https://gplinks.co/z".toList, "https://gplinks.co/z".toList, true⟩ 2 := by
  constructor
  · exact
      (claimC3_captcha_terminal.1 "https://gplinks.co/z".toList
        [⟨"https://gplinks.co/z".toList, "https://gplinks.co/z".toList, false⟩,
          ⟨"https://gplinks.co/z".toList, "https://gplinks.co/z".toList, true⟩]
        1 ⟨"https://gplinks.co/z".toList, "https://gplinks.co/z".toList, true⟩
        (by decide) (by decide)
        (fun j hj rj hrj => by
          have hj0 : j = 0 := by omega
          subst hj0
          simp only [List.getElem?_cons_zero, Option.some.injEq] at hrj
          subst hrj
          exact ⟨by decide, by decide⟩)
        ⟨"https://gplinks.co/z".toList, "https://gplinks.co/z".toList, false⟩ 0)
  · exact
      (claimC3_captcha_terminal.2 "https://gplinks.co/z".toList
        [⟨"https://gplinks.co/z".toList, "https://gplinks.co/z".toList, false⟩,
          ⟨"https://gplinks.co/z".toList, "https://gplinks.co/z".toList, true⟩]
        1 ⟨"https://gplinks.co/z".toList, "https://gplinks.co/z".toList, true⟩
        (by decide) (by decide)
        (fun j hj rj hrj => by
          have hj0 : j = 0 := by omega
          subst hj0
          simp only [List.getElem?_cons_zero, Option.some.injEq] at hrj
          subst hrj
          exact ⟨by decide, by decide⟩)
        ⟨"https://gplinks.co/z".toList, "https://gplinks.co/z".toList, false⟩ 0)

/-- Counterexample for C10 as stated: the cloudscraper endpoint clamps
to [1, 6], not [1, 10] — a request for 8 attempts runs 6, not the 8
that a [1, 10] clamp would give. -/
theorem claimC10_counterexample :
    effAttemptsCloud (some 8) = 6 ∧ max 1 (min 10 (8 : Int)) = 8 ∧
      (6 : Int) ≠ 8 := by
  decide

theorem botEndpointLoop_made_le (url : List Char) (rs : List AttemptRes)
    (acc : AttemptRes) (made : Nat) :
    epMade (botEndpointLoop url rs acc made) ≤ made + rs.length := by
  induction rs generalizing acc made with
  | nil => simp [botEndpointLoop, epMade]
  | cons r rest ih =>
    rw [botEndpointLoop]
    split_ifs
    · simp only [epMade, List.length_cons]
      omega
    · have := ih r (made + 1)
      simp only [List.length_cons]
      omega

/-- Claim C10 (corrected): the two playwright endpoints clamp the
requested attempts to [1, 10] (missing/zero becomes the default 3);
the cloudscraper endpoint clamps to [1, 6], not [1, 10]
(`claimC10_counterexample`).  In all cases the effective attempts lie
in [1, 10] and `attempts_made` in bot.py's response never exceeds
10. -/
theorem claimC10_attempt_clamps :
    (∀ a : Option Int,
      1 ≤ effAttemptsBot a ∧ effAttemptsBot a ≤ 10 ∧
      1 ≤ effAttemptsWeb a ∧ effAttemptsWeb a ≤ 10 ∧
      1 ≤ effAttemptsCloud a ∧ effAttemptsCloud a ≤ 6) ∧
    effAttemptsBot none = 3 ∧ effAttemptsBot (some 0) = 3 ∧
    effAttemptsWeb (some 0) = 3 ∧ effAttemptsCloud none = 3 ∧
    (∀ (url : List Char) (a : Option Int) (rs : List AttemptRes),
      (botEndpointRun url (effAttemptsBot a).toNat rs).attemptsMade ≤ 10) := by
  have hbnd : ∀ a : Option Int,
      1 ≤ effAttemptsBot a ∧ effAttemptsBot a ≤ 10 ∧
      1 ≤ effAttemptsWeb a ∧ effAttemptsWeb a ≤ 10 ∧
      1 ≤ effAttemptsCloud a ∧ effAttemptsCloud a ≤ 6 := by
    intro a
    rcases a with _ | v
    · decide
    · unfold effAttemptsBot effAttemptsWeb effAttemptsCloud pyOrInt
      by_cases h0 : v = 0
      · subst h0; decide
      · simp only [if_neg h0]
        refine ⟨?_, ?_, ?_, ?_, ?_, ?_⟩ <;> omega
  refine ⟨hbnd, by decide, by decide, by decide, by decide, ?_⟩
  intro url a rs
  have hmade : (botEndpointRun url (effAttemptsBot a).toNat rs).attemptsMade =
      epMade (botEndpointLoop url (rs.take (effAttemptsBot a).toNat)
        ⟨url, url, false⟩ 0) := by
    unfold botEndpointRun
    cases botEndpointLoop url (rs.take (effAttemptsBot a).toNat)
        ⟨url, url, false⟩ 0 <;> rfl
  rw [hmade]
  have h1 := botEndpointLoop_made_le url (rs.take (effAttemptsBot a).toNat)
    ⟨url, url, false⟩ 0
  have h2 : (rs.take (effAttemptsBot a).toNat).length ≤
      (effAttemptsBot a).toNat := by
    simp [List.length_take]
  have h3 : (effAttemptsBot a).toNat ≤ 10 := by
    have := (hbnd a).2.1
    omega
  omega

end GpBot
